import Mathlib

/-
Verification of the perceive-plan-act core of the appium-mcp-claude-android
repository: the snapshot parsers (node_parser.py), the heuristic planner
(llm_client.py) and the control loop / action resolution layer (bridge.py)
are embedded shallowly as executable Lean functions, and the spec claims
are settled against them.

Conventions of the embedding:
 - Python strings are Lean Strings; the character-level Python primitives
   (strip, split, lower, replace, substring containment, int()/float()
   conversion) are re-implemented on List Char.  Digits are ASCII digits,
   matching the payloads the program handles.
 - Python floats are idealised as exact rationals (PyFloat below).
 - Fallible Python code is embedded in Except String, the error holding a
   tag naming the exception class.
 - xml.etree.ElementTree.fromstring is an external library call; it is
   abstracted as an oracle String -> Except Unit XmlTree whose error case
   is ET.ParseError, its only documented failure on str input.
-/

set_option maxRecDepth 10000

namespace McpAppium

/-! ### Python string primitives -/

/-- Whitespace characters recognised by the Python `str.strip` / `str.split`
model (the ASCII whitespace set plus NEL and NBSP). -/
def isPySpace (c : Char) : Bool :=
  c = ' ' || c = '\t' || c = '\n' || c = '\r' || c = '\x0b' || c = '\x0c' ||
  c = '\x85' || c = '\xa0'

/-- Strip leading and trailing whitespace, as Python `str.strip()`. -/
def stripChars (cs : List Char) : List Char :=
  ((cs.dropWhile isPySpace).reverse.dropWhile isPySpace).reverse

/-- Python `str.strip()`. -/
def pyStrip (s : String) : String := ⟨stripChars s.data⟩

/-- Worker for whitespace splitting, carrying the reversed current word. -/
def splitWsGo : List Char → List Char → List String
  | [], acc => if acc.isEmpty then [] else [⟨acc.reverse⟩]
  | c :: rest, acc =>
    if isPySpace c then
      if acc.isEmpty then splitWsGo rest [] else ⟨acc.reverse⟩ :: splitWsGo rest []
    else splitWsGo rest (c :: acc)

/-- Python `str.split()` with no separator: split on whitespace runs,
discarding empty pieces. -/
def pySplitWs (s : String) : List String := splitWsGo s.data []

/-- Line-break characters of the Python `str.splitlines` model. -/
def isNewlineChar (c : Char) : Bool :=
  c = '\n' || c = '\r' || c = '\x0b' || c = '\x0c' || c = '\x1c' ||
  c = '\x1d' || c = '\x1e' || c = '\x85' || c = '\u2028' || c = '\u2029'

/-- Worker for `splitlines`, carrying the reversed current line. -/
def splitlinesGo : List Char → List Char → List String
  | [], acc => if acc.isEmpty then [] else [⟨acc.reverse⟩]
  | '\r' :: '\n' :: rest, acc => ⟨acc.reverse⟩ :: splitlinesGo rest []
  | c :: rest, acc =>
    if isNewlineChar c then ⟨acc.reverse⟩ :: splitlinesGo rest []
    else splitlinesGo rest (c :: acc)

/-- Python `str.splitlines()`. -/
def pySplitlines (s : String) : List String := splitlinesGo s.data []

/-- Substring containment on character lists (Python `needle in hay`). -/
def containsList (needle : List Char) : List Char → Bool
  | [] => needle.isEmpty
  | c :: rest => needle.isPrefixOf (c :: rest) || containsList needle rest

/-- Python `needle in hay` on strings. -/
def pyInStr (needle hay : String) : Bool := containsList needle.data hay.data

/-- Python `s.startswith(pat)`. -/
def pyStartsWith (s pat : String) : Bool := pat.data.isPrefixOf s.data

/-- Python `str.lower()` (ASCII case folding, which covers the program's
action names and locator keywords). -/
def lowerStr (s : String) : String := ⟨s.data.map Char.toLower⟩

/-- Worker for `str.replace`: leftmost, non-overlapping replacement.  The
fuel is the input length, which suffices because every step consumes at
least one character (the source only ever replaces non-empty patterns);
structural recursion on the fuel keeps the function kernel-reducible. -/
def replaceGo (pat rep : List Char) : Nat → List Char → List Char
  | 0, cs => cs
  | _ + 1, [] => []
  | fuel + 1, c :: rest =>
    if pat.isPrefixOf (c :: rest) then
      rep ++ replaceGo pat rep fuel (rest.drop (pat.length - 1))
    else c :: replaceGo pat rep fuel rest

/-- Python `s.replace(pat, rep)` for the non-empty patterns the source uses. -/
def strReplace (s pat rep : String) : String :=
  if pat = "" then s else ⟨replaceGo pat.data rep.data s.data.length s.data⟩

/-- Worker for `str.split(sep)` with a non-empty separator; fuel as in
`replaceGo`. -/
def splitOnSubGo (sep : List Char) : Nat → List Char → List Char → List (List Char)
  | 0, cs, acc => [acc.reverse ++ cs]
  | _ + 1, [], acc => [acc.reverse]
  | fuel + 1, c :: rest, acc =>
    if sep.isPrefixOf (c :: rest) then
      acc.reverse :: splitOnSubGo sep fuel (rest.drop (sep.length - 1)) []
    else splitOnSubGo sep fuel rest (c :: acc)

/-- Python `s.split(sep)` for a non-empty separator. -/
def splitOnSub (s sep : String) : List String :=
  if sep = "" then [s] else (splitOnSubGo sep.data s.data.length s.data []).map (⟨·⟩)

/-- Everything after the first colon of the list (Python
`s.split(":", 1)[1]`, for inputs known to contain a colon). -/
def afterFirstColon (cs : List Char) : List Char :=
  match cs.dropWhile (fun c => c != ':') with
  | _ :: rest => rest
  | [] => []

/-! ### Python numeric conversion -/

/-- Tail of a digit run: digits with single underscores between digits
(the Python numeric-literal digit grammar accepted by int()/float()). -/
def goodTail : List Char → Bool
  | [] => true
  | '_' :: rest =>
    match rest with
    | c :: r => c.isDigit && goodTail r
    | [] => false
  | c :: rest => c.isDigit && goodTail rest

/-- A valid digit run: non-empty, starts with a digit, single underscores
only between digits. -/
def goodDigitRun : List Char → Bool
  | [] => false
  | c :: rest => c.isDigit && goodTail rest

/-- Numeric value of a digit run, ignoring underscores. -/
def digitsVal (cs : List Char) : Nat :=
  cs.foldl (fun n c => if c.isDigit then 10 * n + (c.toNat - 48) else n) 0

/-- Split off an optional leading sign; the Bool is true for a minus. -/
def takeSign : List Char → Bool × List Char
  | '+' :: rest => (false, rest)
  | '-' :: rest => (true, rest)
  | cs => (false, cs)

/-- Python `int(s)` on a string: strip whitespace, optional sign, digit run
(base 10); `none` models ValueError. -/
def pyIntOfString (s : String) : Option Int :=
  let t := stripChars s.data
  let (neg, r) := takeSign t
  if goodDigitRun r then
    some (if neg then -(digitsVal r : Int) else (digitsVal r : Int))
  else none

/-- Python float values, idealised: finite floats are exact rationals. -/
inductive PyFloat where
  | finite (q : ℚ)
  | inf
  | ninf
  | nan
deriving DecidableEq

/-- A mantissa digit-run character. -/
def isRunChar (c : Char) : Bool := c.isDigit || c = '_'

/-- Parse the exponent tail `e[sign]digits` of a float literal. -/
def parseExponent : List Char → Option Int
  | [] => some 0
  | c :: rest =>
    if c = 'e' || c = 'E' then
      let (neg, r) := takeSign rest
      let run := r.takeWhile isRunChar
      let rest2 := r.dropWhile isRunChar
      if goodDigitRun run && rest2.isEmpty then
        some (if neg then -(digitsVal run : Int) else (digitsVal run : Int))
      else none
    else none

/-- Python `float(s)`: strip, optional sign, then `inf`/`infinity`/`nan`
or `digits[.digits][e digits]`; `none` models ValueError. -/
def pyFloatOfString (s : String) : Option PyFloat :=
  let t := stripChars s.data
  let (neg, r) := takeSign t
  let rl := r.map Char.toLower
  if rl = "inf".data || rl = "infinity".data then
    some (if neg then .ninf else .inf)
  else if rl = "nan".data then some .nan
  else
    let run1 := r.takeWhile isRunChar
    let rest1 := r.dropWhile isRunChar
    let hasDot := match rest1 with
      | '.' :: _ => true
      | _ => false
    let run2 := if hasDot then rest1.tail.takeWhile isRunChar else []
    let rest2 := if hasDot then rest1.tail.dropWhile isRunChar else rest1
    let mantissaOk :=
      (if run1.isEmpty then run2.isEmpty = false && goodDigitRun run2
       else goodDigitRun run1 && (run2.isEmpty || goodDigitRun run2))
    if mantissaOk then
      match parseExponent rest2 with
      | none => none
      | some e =>
        let k := (run2.filter Char.isDigit).length
        let num : Int := Int.ofNat (digitsVal run1 * 10 ^ k + digitsVal run2)
        let signedNum : Int := if neg then -num else num
        let mag : ℚ :=
          match e with
          | .ofNat m => mkRat (signedNum * Int.ofNat (10 ^ m)) (10 ^ k)
          | .negSucc m => mkRat signedNum (10 ^ k * 10 ^ (m + 1))
        some (.finite mag)
    else none

/-! ### node_parser.py: bounds parsing -/

/-- Greedy run of ASCII digits with its value, or `none` if empty
(the `\d+` piece of BOUNDS_PATTERN). -/
def takeNum (cs : List Char) : Option (Nat × List Char) :=
  let ds := cs.takeWhile Char.isDigit
  if ds.isEmpty then none else some (digitsVal ds, cs.dropWhile Char.isDigit)

/-- Require a literal character. -/
def expectChar (c : Char) : List Char → Option (List Char)
  | x :: rest => if x = c then some rest else none
  | [] => none

/-- Try to match BOUNDS_PATTERN `\[(\d+),(\d+)\]\[(\d+),(\d+)\]` at the
head of the list. -/
def matchBoundsAt (cs : List Char) : Option (Nat × Nat × Nat × Nat) :=
  match cs with
  | '[' :: r0 =>
    match takeNum r0 with
    | none => none
    | some (a, r1) =>
      match expectChar ',' r1 with
      | none => none
      | some r2 =>
        match takeNum r2 with
        | none => none
        | some (b, r3) =>
          match expectChar ']' r3 with
          | none => none
          | some r4 =>
            match expectChar '[' r4 with
            | none => none
            | some r5 =>
              match takeNum r5 with
              | none => none
              | some (c, r6) =>
                match expectChar ',' r6 with
                | none => none
                | some r7 =>
                  match takeNum r7 with
                  | none => none
                  | some (d, r8) =>
                    match expectChar ']' r8 with
                    | none => none
                    | some _ => some (a, b, c, d)
  | _ => none

/-- `BOUNDS_PATTERN.search`: leftmost match of the fixed pattern. -/
def boundsSearch : List Char → Option (Nat × Nat × Nat × Nat)
  | [] => none
  | c :: rest =>
    match matchBoundsAt (c :: rest) with
    | some r => some r
    | none => boundsSearch rest

/-- node_parser._parse_bounds: search the fixed pattern; no match yields the
all-zero rectangle. -/
def parse_bounds (raw : String) : Int × Int × Int × Int :=
  match boundsSearch raw.data with
  | none => (0, 0, 0, 0)
  | some (a, b, c, d) => ((a : Int), (b : Int), (c : Int), (d : Int))

/-- Scanner state for `findAllInts`: outside a number, just after an
unconsumed minus, or inside a digit run with its sign and value so far. -/
inductive FaiState where
  | idle
  | pendingMinus
  | inRun (neg : Bool) (acc : Nat)

/-- One left-to-right pass implementing `re.findall(r"-?\d+", _)`: a minus
binds to a number only when directly followed by a digit. -/
def faiGo : List Char → FaiState → List Int
  | [], .idle => []
  | [], .pendingMinus => []
  | [], .inRun neg acc => [if neg then -(acc : Int) else (acc : Int)]
  | c :: rest, .idle =>
    if c.isDigit then faiGo rest (.inRun false (c.toNat - 48))
    else if c = '-' then faiGo rest .pendingMinus
    else faiGo rest .idle
  | c :: rest, .pendingMinus =>
    if c.isDigit then faiGo rest (.inRun true (c.toNat - 48))
    else if c = '-' then faiGo rest .pendingMinus
    else faiGo rest .idle
  | c :: rest, .inRun neg acc =>
    if c.isDigit then faiGo rest (.inRun neg (10 * acc + (c.toNat - 48)))
    else
      (if neg then -(acc : Int) else (acc : Int)) ::
        (if c = '-' then faiGo rest .pendingMinus else faiGo rest .idle)

/-- `re.findall(r"-?\d+", line)`: all signed integers on the line, leftmost
and non-overlapping. -/
def findAllInts (cs : List Char) : List Int := faiGo cs .idle

/-- node_parser._parse_bounds_from_dump: extract all signed integers, take
the first four, fewer than four yields the all-zero rectangle. -/
def parse_bounds_from_dump (line : String) : Int × Int × Int × Int :=
  match findAllInts line.data with
  | a :: b :: c :: d :: _ => (a, b, c, d)
  | _ => (0, 0, 0, 0)

/-! ### node_parser.py: NodeSnapshot and the two parsers -/

/-- node_parser.NodeSnapshot: one UI element observation. -/
structure NodeSnapshot where
  text : String := ""
  content_desc : String := ""
  resource_id : String := ""
  class_name : String := ""
  package : String := ""
  bounds : Int × Int × Int × Int := (0, 0, 0, 0)
deriving DecidableEq

/-- A driver locator: strategy tag plus value. -/
structure Locator where
  strategy : String
  value : String
deriving DecidableEq

/-- NodeSnapshot.preferred_locator: resource id, then content description,
then literal text, then none. -/
def NodeSnapshot.preferred_locator (n : NodeSnapshot) : Option Locator :=
  if n.resource_id ≠ "" then some ⟨"id", n.resource_id⟩
  else if n.content_desc ≠ "" then some ⟨"accessibility_id", n.content_desc⟩
  else if n.text ≠ "" then some ⟨"text", n.text⟩
  else none

/-- An element tree as produced by xml.etree.ElementTree: attributes (a
dict, here the association list of its items) and children. -/
inductive XmlTree where
  | node (attrib : List (String × String)) (children : List XmlTree)

/-- Python `attrib.get(key, "")` on the attribute dict. -/
def attribGet (attrib : List (String × String)) (key : String) : String :=
  match attrib.lookup key with
  | some v => v
  | none => ""

mutual

/-- `tree.iter()`: the element itself, then all descendants, depth first. -/
def iterAll : XmlTree → List XmlTree
  | .node a cs => XmlTree.node a cs :: iterAllL cs

/-- `tree.iter()` over a list of siblings. -/
def iterAllL : List XmlTree → List XmlTree
  | [] => []
  | t :: ts => iterAll t ++ iterAllL ts

end

/-- The NodeSnapshot read off one element's attributes. -/
def snapshotOfAttrib (a : List (String × String)) : NodeSnapshot :=
  { text := attribGet a "text"
    content_desc := attribGet a "content-desc"
    resource_id := attribGet a "resource-id"
    class_name := attribGet a "class"
    package := attribGet a "package"
    bounds := parse_bounds (attribGet a "bounds") }

/-- NodeParser.parse_xml on an already-parsed tree: every element with at
least one attribute becomes one snapshot, in document order. -/
def parse_xml_core (t : XmlTree) : List NodeSnapshot :=
  (iterAll t).filterMap fun e =>
    match e with
    | .node a _ => if a = [] then none else some (snapshotOfAttrib a)

/-- NodeParser.parse_xml with the try/except around ET.fromstring embedded:
the oracle is ET.fromstring, its error case ET.ParseError (its only
documented failure on str input), which the source catches and turns into
the empty list.  The result is the whole call's outcome: an uncaught
exception would be an `Except.error`. -/
def parse_xml_exc (fromstring : String → Except Unit XmlTree) (payload : String) :
    Except Unit (List NodeSnapshot) :=
  match fromstring payload with
  | .error _ => .ok []
  | .ok t => .ok (parse_xml_core t)

/-- The snapshot a fresh `NodeSnapshot()` denotes (all dataclass defaults). -/
def emptySnapshot : NodeSnapshot := {}

/-- One line of NodeParser.parse_accessibility_dump's loop: state is the
flushed snapshots plus the current in-progress node. -/
def dumpStep (acc : List NodeSnapshot × Option NodeSnapshot) (line : String) :
    List NodeSnapshot × Option NodeSnapshot :=
  let (snaps, current) := acc
  let stripped := pyStrip line
  if pyStartsWith stripped "View[" || pyStartsWith stripped "AccessibilityNodeInfo[" then
    (match current with
     | some c => snaps ++ [c]
     | none => snaps, some emptySnapshot)
  else
    match current with
    | none => (snaps, none)
    | some cur =>
      if pyStartsWith stripped "text:" then
        (snaps, some { cur with text := pyStrip ⟨afterFirstColon stripped.data⟩ })
      else if pyStartsWith stripped "contentDescription:" then
        (snaps, some { cur with content_desc := pyStrip ⟨afterFirstColon stripped.data⟩ })
      else if pyStartsWith stripped "resourceName:" then
        (snaps, some { cur with resource_id := pyStrip ⟨afterFirstColon stripped.data⟩ })
      else if pyStartsWith stripped "className:" then
        (snaps, some { cur with class_name := pyStrip ⟨afterFirstColon stripped.data⟩ })
      else if pyStartsWith stripped "packageName:" then
        (snaps, some { cur with package := pyStrip ⟨afterFirstColon stripped.data⟩ })
      else if pyStartsWith stripped "boundsInScreen:" then
        (snaps, some { cur with bounds := parse_bounds_from_dump stripped })
      else (snaps, some cur)

/-- NodeParser.parse_accessibility_dump: line-oriented parse of an adb
accessibility dump, flushing the final in-progress node. -/
def parse_accessibility_dump (payload : String) : List NodeSnapshot :=
  let (snaps, current) := (pySplitlines payload).foldl dumpStep ([], none)
  match current with
  | some c => snaps ++ [c]
  | none => snaps

/-! ### Python values carried by planned actions -/

/-- An element of a Python list payload: an int or a string. -/
inductive PyAtom where
  | aInt (i : Int)
  | aStr (s : String)
deriving DecidableEq

/-- A Python value as it occurs in action fields: None, a string, an int,
or a list/tuple of atoms. -/
inductive PyVal where
  | pyNone
  | pyStr (s : String)
  | pyInt (i : Int)
  | pyList (xs : List PyAtom)
deriving DecidableEq

/-- Python truthiness of a PyVal. -/
def pyTruthy : PyVal → Bool
  | .pyNone => false
  | .pyStr s => s != ""
  | .pyInt i => i != 0
  | .pyList l => !l.isEmpty

/-- Python `int(x)` under the `except (TypeError, ValueError)` discipline of
bridge._node_from_index: `none` covers both exception classes. -/
def pyIntOfVal : PyVal → Option Int
  | .pyInt i => some i
  | .pyStr s => pyIntOfString s
  | .pyList _ => none
  | .pyNone => none

/-- Python `int(x)` where an uncaught ValueError matters (list elements in
bridge._parse_coordinates). -/
def pyIntOfAtomE : PyAtom → Except String Int
  | .aInt i => .ok i
  | .aStr s =>
    match pyIntOfString s with
    | some i => .ok i
    | none => .error "ValueError"

/-! ### action_types (modelled from the spec) -/

/-- Modelled from the spec: the repository imports `PlannedAction` from
`mcp_appium.action_types`, a module absent from the provided sources.
Shape per spec section 3: a name from the fixed action vocabulary, an
optional locator (strategy tag plus value), an optional free-form value,
and an open metadata mapping. -/
structure PlannedAction where
  name : String
  locator : Option (String × PyVal) := none
  value : PyVal := .pyNone
  metadata : List (String × String) := []
deriving DecidableEq

/-- Modelled from the spec: `action.describe()` renders the `<action>` part
of the ledger records `ok:<action>` / `skip:<action>` /
`error:<action> reason=<cause>`; we render an action by its name. -/
def PlannedAction.describe (a : PlannedAction) : String := a.name

/-- Modelled from the spec: `PlanResponse` — ordered actions, a
continuation flag (`request_refresh`), and a diagnostic rationale. -/
structure Plan where
  actions : List PlannedAction
  request_refresh : Bool
  thought : String := ""

/-! ### bridge.py: action helpers -/

/-- bridge._center_of_bounds: the all-zero rectangle means unknown and
yields no centre; otherwise the bounds centre, with Python `int((a+b)/2)`
truncation toward zero. -/
def center_of_bounds (b : Int × Int × Int × Int) : Option (Int × Int) :=
  if b.1 = b.2.2.1 ∧ b.2.2.1 = b.2.1 ∧ b.2.1 = b.2.2.2 ∧ b.2.2.2 = 0 then none
  else some (Int.tdiv (b.1 + b.2.2.1) 2, Int.tdiv (b.2.1 + b.2.2.2) 2)

/-- bridge._node_from_index: falsy values and non-numeric values yield no
node; indices are 1-based into the current snapshot list. -/
def node_from_index (nodes : List NodeSnapshot) (value : PyVal) : Option NodeSnapshot :=
  if !pyTruthy value then none
  else
    match pyIntOfVal value with
    | none => none
    | some i =>
      if i ≤ 0 ∨ (nodes.length : Int) < i then none
      else nodes.get? (i - 1).toNat

/-- bridge._resolve_element, node_index branch: the driver lookup is the
oracle `find`; on a missed lookup with the keyboard shown the lookup is
retried once; a node with no derivable locator stashes its bounds centre
into the metadata with `setdefault` semantics.  The second component is
the metadata's "fallback_coordinates" entry after the call. -/
def resolve_node_index {α : Type} (find : String → String → Option α)
    (keyboard_shown : Bool) (nodes : List NodeSnapshot) (value : PyVal)
    (fallback : Option (Int × Int)) : Option α × Option (Int × Int) :=
  match node_from_index nodes value with
  | none => (none, fallback)
  | some node =>
    match node.preferred_locator with
    | some loc =>
      match find loc.strategy loc.value with
      | some e => (some e, fallback)
      | none => (if keyboard_shown then find loc.strategy loc.value else none, fallback)
    | none =>
      match center_of_bounds node.bounds with
      | some c => (none, some (fallback.getD c))
      | none => (none, fallback)

/-- The comprehension `[int(part.strip()) for part in ...]` of
bridge._parse_coordinates: it raises at the first bad part, and that
ValueError is caught by the surrounding `try`, so `none` is the caught
failure. -/
def intsOfParts : List String → Option (List Int)
  | [] => some []
  | p :: rest =>
    match pyIntOfString (pyStrip p) with
    | none => none
    | some i =>
      match intsOfParts rest with
      | none => none
      | some l => some (i :: l)

/-- bridge._parse_coordinates: coordinates from a string, a list/tuple, or
nothing.  The error case is the exception escaping the call: `int()` on a
bad list element raises ValueError outside the `try`, and a truthy
non-string, non-list value reaches `raw.replace` and raises
AttributeError. -/
def parse_coordinates (raw : PyVal) : Except String (Option (Int × Int)) :=
  if !pyTruthy raw then .ok none
  else
    match raw with
    | .pyList xs =>
      match xs with
      | a :: b :: _ =>
        match pyIntOfAtomE a with
        | .error e => .error e
        | .ok x =>
          match pyIntOfAtomE b with
          | .error e => .error e
          | .ok y => .ok (some (x, y))
      | _ => .error "AttributeError"
    | .pyStr s =>
      match intsOfParts (pySplitWs (strReplace s "," " ")) with
      | none => .ok none
      | some parts =>
        match parts with
        | x :: y :: _ => .ok (some (x, y))
        | _ => .ok none
    | .pyInt _ => .error "AttributeError"
    | .pyNone => .ok none

/-- bridge._assert_text's `(action.value or "").strip()` receiver: a falsy
value becomes the empty string; a truthy non-string has no `.strip` and
raises AttributeError. -/
def value_or_empty (v : PyVal) : Except String String :=
  if pyTruthy v then
    match v with
    | .pyStr s => .ok s
    | _ => .error "AttributeError"
  else .ok ""

/-- bridge._assert_text: the element argument is the resolution outcome
(`none` = unresolved), carrying the element's text (itself possibly None).
Assertion messages are abstracted to their exception class. -/
def assert_text (element : Option (Option String)) (value : PyVal) : Except String Unit :=
  match element with
  | none => .error "assert_text failed: element missing"
  | some txt =>
    match value_or_empty value with
    | .error e => .error e
    | .ok v =>
      if pyInStr (pyStrip v) (pyStrip (txt.getD "")) then .ok ()
      else .error "AssertionError"

/-- The `wait` arm of bridge._execute_plan: `float(action.value or 1.0)`
then `time.sleep(duration)`; the sleep itself is external, so the result
is the duration handed to it, or the exception `float` raises. -/
def wait_action (value : PyVal) : Except String PyFloat :=
  if pyTruthy value then
    match value with
    | .pyStr s =>
      match pyFloatOfString s with
      | some f => .ok f
      | none => .error "ValueError"
    | .pyInt i => .ok (.finite (mkRat i 1))
    | .pyList _ => .error "TypeError"
    | .pyNone => .error "TypeError"
  else .ok (.finite 1)

/-! ### bridge.py: plan execution and the control loop -/

/-- The action names bridge._execute_plan dispatches on; anything else is
recorded as skipped. -/
def known_action (name : String) : Bool :=
  ["tap", "input_text", "wait", "assert_text", "swipe", "long_press",
   "back", "hide_keyboard", "scroll_down", "scroll_up"].contains name

/-- bridge._execute_plan: run actions in order, appending `ok:`/`skip:`
records; a handler failure appends the `error:` record and re-raises.  The
handlers touch only the driver, so they are the oracle `env`.  The error
case carries the local `logs` list at the moment of the raise (visible
here for observability; the Python caller never receives it). -/
def execute_plan (env : PlannedAction → Except String Unit) :
    List PlannedAction → List String → Except (List String × String) (List String)
  | [], logs => .ok logs
  | a :: rest, logs =>
    if known_action a.name then
      match env a with
      | .ok _ => execute_plan env rest (logs ++ ["ok:" ++ a.describe])
      | .error e => .error (logs ++ ["error:" ++ a.describe ++ " reason=" ++ e], e)
    else execute_plan env rest (logs ++ ["skip:" ++ a.describe])

/-- bridge.run_instruction's `"\n".join(reversed(history[-6:]))`. -/
def historyText (history : List String) : String :=
  String.intercalate "\n" (history.drop (history.length - 6)).reverse

/-- The body of bridge.run_instruction's turn loop.  `build` is the prompt
assembler, `planner` the LLM call (receiving the prompt and the indexed
fallback nodes), `collect` the snapshot source by call count, `env` the
action handlers.  An execution failure propagates, discarding that turn's
log exactly as the Python local is lost; the error carries the exception
and the history at the moment of the raise. -/
def run_loop (build : String → List NodeSnapshot → String → String)
    (planner : String → List NodeSnapshot → Plan)
    (env : PlannedAction → Except String Unit)
    (collect : Nat → List NodeSnapshot) (request : String) :
    Nat → Nat → List NodeSnapshot → List String → List PlannedAction → Nat →
    Except (String × List String) (List PlannedAction × List String × Nat)
  | 0, _, _, history, executed, batches => .ok (executed, history, batches)
  | fuel + 1, calls, nodes, history, executed, batches =>
    let prompt := build request nodes (historyText history)
    let plan := planner prompt nodes
    match execute_plan env plan.actions [] with
    | .error (_, e) => .error (e, history)
    | .ok logs =>
      if plan.request_refresh then
        run_loop build planner env collect request fuel (calls + 1)
          (collect (calls + 1)) (history ++ logs) (executed ++ plan.actions) (batches + 1)
      else .ok (executed ++ plan.actions, history ++ logs, batches + 1)

/-- bridge.run_instruction: connect (external), take an initial snapshot,
then loop up to `max_turns` times.  On success the result also exposes the
accumulated history and the number of executed plan-execute batches. -/
def run_instruction (build : String → List NodeSnapshot → String → String)
    (planner : String → List NodeSnapshot → Plan)
    (env : PlannedAction → Except String Unit)
    (collect : Nat → List NodeSnapshot) (request : String) (max_turns : Nat) :
    Except (String × List String) (List PlannedAction × List String × Nat) :=
  run_loop build planner env collect request max_turns 0 (collect 0) [] [] 0

/-- The number of executed batches of a run, when it returned normally. -/
def batchesOf (r : Except (String × List String) (List PlannedAction × List String × Nat)) :
    Option Nat :=
  match r with
  | .ok (_, _, b) => some b
  | .error _ => none

/-! ### llm_client.py: the heuristic (mock) planner -/

/-- One fallback node as handed to the mock planner: `as_dict()` of a
NodeSnapshot plus its 1-based index. -/
structure MockNode where
  text : String := ""
  content_desc : String := ""
  resource_id : String := ""
  class_name : String := ""
  bounds : Int × Int × Int × Int := (0, 0, 0, 0)
  index : Int := 1
deriving DecidableEq

/-- The stop-word set of LLMClient._extract_keywords. -/
def stopWords : List String :=
  ["를", "을", "에", "에서", "의", "로", "으로", "과", "와", "이", "가", "은", "는",
   "현재", "화면", "버튼", "클릭", "눌러", "눌러줘", "해줘", "주세요", "수", "있습니다"]

/-- LLMClient._extract_keywords: isolate the user-request tail of a full
prompt, split into words, drop stop words and one-character words. -/
def extract_keywords (request : String) : List String :=
  let request2 :=
    if pyInStr "User request:" request || pyInStr "user request:" request then
      let parts := splitOnSub request "user request:"
      if 1 < parts.length then
        match parts.getLast? with
        | some p => pyStrip p
        | none => request
      else request
    else request
  (pySplitWs request2).filter fun w => !stopWords.contains w && 1 < w.length

/-- Strip the Korean particles the scorer removes from a keyword. -/
def stripParticles (s : String) : String :=
  strReplace (strReplace (strReplace s "을" "") "를" "") "에서" ""

/-- The score LLMClient._find_best_match assigns one node. -/
def scoreNode (keywords : List String) (n : MockNode) : Nat :=
  let textLower := lowerStr n.text
  let contentDesc := lowerStr n.content_desc
  let resourceId := lowerStr n.resource_id
  let combined := pyStrip (stripParticles (String.intercalate " " keywords))
  let base := if pyInStr (lowerStr combined) textLower then 100 else 0
  let kwScore := keywords.foldl
    (fun acc k =>
      let kl := stripParticles (lowerStr k)
      acc + (if pyInStr kl textLower then 10 else 0) +
        (if pyInStr kl contentDesc then 8 else 0) +
        (if pyInStr kl resourceId then 5 else 0))
    0
  let score := base + kwScore
  if 0 < score ∧ n.text.length < 20 then score + 5 else score

/-- The node scan of LLMClient._find_best_match: skip nodes with empty
text and description, keep the first highest-scoring node. -/
def fbmGo (keywords : List String) : List MockNode → Option MockNode → Nat → Option MockNode
  | [], best, _ => best
  | n :: rest, best, bestScore =>
    if n.text = "" ∧ lowerStr n.content_desc = "" then fbmGo keywords rest best bestScore
    else
      let sc := scoreNode keywords n
      if bestScore < sc then fbmGo keywords rest (some n) sc
      else fbmGo keywords rest best bestScore

set_option linter.unusedVariables false in
/-- LLMClient._find_best_match.  The source also computes a `user_request`
local from `full_request` but never uses it afterwards; the parameter is
kept for signature fidelity. -/
def find_best_match (nodes : List MockNode) (keywords : List String)
    (full_request : String) : Option MockNode :=
  fbmGo keywords nodes none 0

/-- Stand-in for Python `str(target)` stored in the action metadata (the
rendering itself is behaviour-irrelevant). -/
def mockNodeRepr (n : MockNode) : String :=
  n.text ++ "|" ++ n.content_desc ++ "|" ++ n.resource_id ++ "|" ++ n.class_name

/-- LLMClient._mock_actions: keyword heuristic over the fallback nodes;
emits one input_text or tap against the best match, or a noop; never
requests continuation. -/
def mock_actions (nodes : List MockNode) (prompt : String) : Plan :=
  let request := lowerStr prompt
  let keywords := extract_keywords request
  if !nodes.isEmpty then
    match find_best_match nodes keywords request with
    | some target =>
      if pyInStr "입력" request || pyInStr "input" request || pyInStr "type" request then
        { actions := [{ name := "input_text"
                        locator := some ("node_index", .pyInt target.index)
                        value := .pyStr ""
                        metadata := [("mock_reason", "input field matched"),
                                     ("element", mockNodeRepr target)] }]
          request_refresh := false
          thought := "Mock response" }
      else
        { actions := [{ name := "tap"
                        locator := some ("node_index", .pyInt target.index)
                        metadata := [("mock_reason", "keyword matched"),
                                     ("element", mockNodeRepr target)] }]
          request_refresh := false
          thought := "Mock response" }
    | none =>
      { actions := [{ name := "noop", metadata := [("mock_reason", "no match found")] }]
        request_refresh := false
        thought := "Mock response" }
  else
    { actions := [{ name := "noop", metadata := [("mock_reason", "no nodes")] }]
      request_refresh := false
      thought := "Mock response" }

/-- The integers a coordinate string contains, read the way
bridge._parse_coordinates reads them: comma-to-space, whitespace split,
then `int()` on each part. -/
def parseableInts (s : String) : List Int :=
  (pySplitWs (strReplace s "," " ")).filterMap fun p => pyIntOfString (pyStrip p)

deriving instance DecidableEq for Except

/-! ## Helper lemmas -/

/-- Lowercasing preserves emptiness of a string. -/
theorem lowerStr_eq_empty_iff (s : String) : lowerStr s = "" ↔ s = "" := by
  constructor
  · intro h
    have hd := congrArg String.data h
    simp only [lowerStr] at hd
    have hnil : s.data = [] := List.map_eq_nil_iff.mp hd
    cases s with
    | mk data => simp at hnil; simp [hnil]
  · intro h; subst h; rfl

/-- The comprehension result of intsOfParts is the filterMap of the part
list, when no part fails. -/
theorem intsOfParts_eq_filterMap :
    ∀ (ps : List String) (l : List Int), intsOfParts ps = some l →
      l = ps.filterMap fun p => pyIntOfString (pyStrip p) := by
  intro ps
  induction ps with
  | nil => intro l h; simp [intsOfParts] at h; simp [h.symm]
  | cons p rest ih =>
    intro l h
    simp only [intsOfParts] at h
    cases hp : pyIntOfString (pyStrip p) with
    | none => rw [hp] at h; exact absurd h (by simp)
    | some i =>
      rw [hp] at h
      cases hr : intsOfParts rest with
      | none => rw [hr] at h; exact absurd h (by simp)
      | some l2 =>
        rw [hr] at h
        simp only [Option.some.injEq] at h
        subst h
        simp [List.filterMap_cons, hp, ih l2 hr]

/-! ## Claims -/

/-- C7: preferred_locator follows the fixed priority order: a non-empty
resource id yields an id locator; otherwise a non-empty content
description yields an accessibility-id locator; otherwise non-empty text
yields a text locator; otherwise none. -/
theorem c7_preferred_locator_priority (n : NodeSnapshot) :
    (n.resource_id ≠ "" → n.preferred_locator = some ⟨"id", n.resource_id⟩) ∧
    (n.resource_id = "" → n.content_desc ≠ "" →
      n.preferred_locator = some ⟨"accessibility_id", n.content_desc⟩) ∧
    (n.resource_id = "" → n.content_desc = "" → n.text ≠ "" →
      n.preferred_locator = some ⟨"text", n.text⟩) ∧
    (n.resource_id = "" → n.content_desc = "" → n.text = "" →
      n.preferred_locator = none) := by
  refine ⟨?_, ?_, ?_, ?_⟩ <;> intros <;> simp [NodeSnapshot.preferred_locator, *]

/-- Witness for C7 at a concrete snapshot carrying a resource id. -/
theorem c7_witness :
    ({ resource_id := "btn_submit" } : NodeSnapshot).preferred_locator =
      some ⟨"id", "btn_submit"⟩ :=
  (c7_preferred_locator_priority _).1 (by decide)

/-- C10: bounds parsing is asymmetric between the two snapshot forms.  The
tree-form pattern only matches unsigned digit runs, so a parsed tree bound
is never negative, and the claim's negative-coordinate attribute yields
the all-zero rectangle; the dump form extracts signed integers and returns
them as the first four bounds values. -/
theorem c10_bounds_asymmetry :
    (∀ s : String, 0 ≤ (parse_bounds s).1 ∧ 0 ≤ (parse_bounds s).2.1 ∧
      0 ≤ (parse_bounds s).2.2.1 ∧ 0 ≤ (parse_bounds s).2.2.2) ∧
    parse_bounds "[-5,0][10,10]" = (0, 0, 0, 0) ∧
    parse_bounds_from_dump "boundsInScreen: Rect(-5, 0 - 10, 10)" = (-5, 0, 10, 10) := by
  refine ⟨?_, by decide, by decide⟩
  intro s
  unfold parse_bounds
  cases h : boundsSearch s.data with
  | none => simp
  | some r =>
    obtain ⟨a, b, c, d⟩ := r
    refine ⟨?_, ?_, ?_, ?_⟩ <;> simp

/-- C4: parse_xml never lets an exception escape — the only failure mode of
the markup parse is caught and turned into the empty list — and
parse_accessibility_dump is a total function of the payload. -/
theorem c4_parsers_no_raise :
    (∀ (fromstring : String → Except Unit XmlTree) (payload : String),
        ∃ l, parse_xml_exc fromstring payload = .ok l) ∧
    (∀ (fromstring : String → Except Unit XmlTree) (payload : String),
        fromstring payload = .error () → parse_xml_exc fromstring payload = .ok []) ∧
    (∀ payload : String, ∃ l, parse_accessibility_dump payload = l) := by
  refine ⟨?_, ?_, fun p => ⟨_, rfl⟩⟩
  · intro f p
    unfold parse_xml_exc
    cases h : f p <;> exact ⟨_, rfl⟩
  · intro f p h
    unfold parse_xml_exc
    rw [h]

/-- Witness for C4 at a concrete failing markup parse. -/
theorem c4_witness :
    parse_xml_exc (fun _ => .error ()) "<not-xml" = .ok [] :=
  c4_parsers_no_raise.2.1 (fun _ => .error ()) "<not-xml" rfl

/-- C5: assert_text succeeds on a resolved element iff the trimmed expected
value is a substring of the trimmed element text; the claim's two examples
behave as stated; an unresolved element fails. -/
theorem c5_assert_text_substring :
    (∀ (txt : Option String) (v : String),
        assert_text (some txt) (.pyStr v) = .ok () ↔
          pyInStr (pyStrip v) (pyStrip (txt.getD "")) = true) ∧
    assert_text (some (some "  Login Page  ")) (.pyStr "Login") = .ok () ∧
    assert_text (some (some "Login Page")) (.pyStr "Logout") = .error "AssertionError" ∧
    (∀ value : PyVal, assert_text none value = .error "assert_text failed: element missing") := by
  refine ⟨?_, by decide, by decide, fun v => rfl⟩
  intro txt v
  have hv : value_or_empty (.pyStr v) = .ok v := by
    by_cases h : v = ""
    · subst h; rfl
    · simp [value_or_empty, pyTruthy, h]
  simp only [assert_text, hv]
  by_cases h : pyInStr (pyStrip v) (pyStrip (txt.getD "")) = true
  · simp [h]
  · simp [h]

/-- Witness for C5's resolved-element equivalence at a concrete pair. -/
theorem c5_witness :
    assert_text (some (some "abc")) (.pyStr "b") = .ok () :=
  (c5_assert_text_substring.1 (some "abc") "b").mpr (by decide)

/-- C2 fails as stated: a wait value that is present but not parseable as a
number does not default to 1.0 seconds — `float` raises and the action
fails. -/
theorem c2_counterexample :
    wait_action (.pyStr "abc") = .error "ValueError" ∧
    wait_action (.pyStr "abc") ≠ .ok (.finite 1) := by
  exact ⟨rfl, by decide⟩

/-- C2 amended: an absent or falsy wait value (None, empty string, zero)
defaults the pause to 1.0 seconds; a non-empty string value pauses for its
parsed numeric value, and raises ValueError — failing the action — when it
does not parse. -/
theorem c2_wait_default :
    wait_action .pyNone = .ok (.finite 1) ∧
    wait_action (.pyStr "") = .ok (.finite 1) ∧
    wait_action (.pyInt 0) = .ok (.finite 1) ∧
    (∀ s : String, s ≠ "" →
      wait_action (.pyStr s) =
        match pyFloatOfString s with
        | some f => .ok f
        | none => .error "ValueError") := by
  refine ⟨rfl, rfl, rfl, ?_⟩
  intro s hs
  simp [wait_action, pyTruthy, hs]

/-- Witness for C2's amended parseable case at a concrete duration. -/
theorem c2_witness : wait_action (.pyStr "3") = .ok (.finite (mkRat 3 1)) := by
  rw [c2_wait_default.2.2.2 "3" (by decide)]
  decide

/-- C8 fails as stated: a two-element list whose entries are not parseable
as integers contains fewer than two parseable integers, yet the parse
raises ValueError instead of yielding no coordinates. -/
theorem c8_counterexample :
    parse_coordinates (.pyList [.aStr "abc", .aStr "def"]) = .error "ValueError" ∧
    parse_coordinates (.pyList [.aStr "abc", .aStr "def"]) ≠ .ok none := by
  exact ⟨rfl, by decide⟩

/-- C8 amended: the three claimed positive forms all produce (120, 340),
and an absent value or a string with fewer than two parseable integers
yields no coordinates; but a truthy list input escapes that guarantee (see
the counterexample), since its elements are converted outside the try. -/
theorem c8_amended :
    parse_coordinates (.pyStr "120,340") = .ok (some (120, 340)) ∧
    parse_coordinates (.pyStr "120 340") = .ok (some (120, 340)) ∧
    parse_coordinates (.pyList [.aInt 120, .aInt 340]) = .ok (some (120, 340)) ∧
    parse_coordinates .pyNone = .ok none ∧
    (∀ s : String, (parseableInts s).length < 2 → parse_coordinates (.pyStr s) = .ok none) := by
  refine ⟨by decide, by decide, by decide, rfl, ?_⟩
  intro s hlen
  by_cases hs : s = ""
  · subst hs; rfl
  · have hb : (s != "") = true := by simp [hs]
    simp only [parse_coordinates, pyTruthy, hb, Bool.not_true, Bool.false_eq_true,
      if_false]
    cases hi : intsOfParts (pySplitWs (strReplace s "," " ")) with
    | none => rfl
    | some l =>
      have heq := intsOfParts_eq_filterMap _ _ hi
      have hl : l.length < 2 := by rw [heq]; exact hlen
      cases l with
      | nil => rfl
      | cons x t =>
        cases t with
        | nil => rfl
        | cons y t2 => simp only [List.length_cons] at hl; omega

/-- Witness for C8's amended string guarantee at a one-integer string. -/
theorem c8_witness : parse_coordinates (.pyStr "5") = .ok none :=
  c8_amended.2.2.2.2 "5" (by decide)

/-- C9 fails as stated: when the metadata already carries a fallback
coordinate, `setdefault` keeps it, so the node's bounds centre is not
recorded even though the bounds are not all-zero. -/
theorem c9_counterexample :
    resolve_node_index (fun _ _ => (none : Option Unit)) false
        [{ class_name := "cls", bounds := (0, 0, 10, 10) }] (.pyInt 1) (some (1, 2)) =
      (none, some (1, 2)) ∧
    center_of_bounds (0, 0, 10, 10) = some (5, 5) ∧
    ((1, 2) : Int × Int) ≠ (5, 5) := by
  exact ⟨rfl, rfl, by decide⟩

/-- C9 amended: for a node_index action whose node exists but has no
derivable locator, resolution returns no element; when the metadata has no
fallback coordinate yet, the recorded fallback is exactly the bounds
centre, which exists iff the bounds are not the all-zero rectangle; a
pre-existing fallback coordinate is preserved unchanged. -/
theorem c9_amended {α : Type} (find : String → String → Option α) (kb : Bool)
    (nodes : List NodeSnapshot) (value : PyVal) (node : NodeSnapshot)
    (hnode : node_from_index nodes value = some node)
    (hloc : node.preferred_locator = none) :
    resolve_node_index find kb nodes value none = (none, center_of_bounds node.bounds) ∧
    (∀ m : Int × Int, resolve_node_index find kb nodes value (some m) = (none, some m)) ∧
    (∀ b : Int × Int × Int × Int, center_of_bounds b = none ↔ b = (0, 0, 0, 0)) := by
  refine ⟨?_, ?_, ?_⟩
  · simp only [resolve_node_index, hnode, hloc]
    cases hc : center_of_bounds node.bounds <;> simp [hc]
  · intro m
    simp only [resolve_node_index, hnode, hloc]
    cases hc : center_of_bounds node.bounds <;> simp [hc]
  · intro b
    obtain ⟨x1, y1, x2, y2⟩ := b
    unfold center_of_bounds
    constructor
    · intro h
      by_cases hcond : x1 = x2 ∧ x2 = y1 ∧ y1 = y2 ∧ y2 = 0
      · simp only [Prod.mk.injEq]
        omega
      · simp [hcond] at h
    · intro h
      simp only [Prod.mk.injEq] at h
      obtain ⟨h1, h2, h3, h4⟩ := h
      subst h1; subst h2; subst h3; subst h4
      simp

/-- Witness for C9's amended statement at a concrete locator-free node. -/
theorem c9_witness :
    resolve_node_index (fun _ _ => (none : Option Unit)) false
        [NodeSnapshot.mk "" "" "" "cls" "" (0, 0, 10, 10)] (.pyInt 1) none =
      (none, center_of_bounds (NodeSnapshot.mk "" "" "" "cls" "" (0, 0, 10, 10)).bounds) :=
  (c9_amended (fun _ _ => (none : Option Unit)) false _ (.pyInt 1) _ (by decide) (by decide)).1

/-- An execution failure appends the `error:` record as the final entry of
the per-turn log before re-raising. -/
theorem execute_plan_error_last (env : PlannedAction → Except String Unit) :
    ∀ (actions : List PlannedAction) (logs res : List String) (e : String),
      execute_plan env actions logs = .error (res, e) →
      ∃ a, a ∈ actions ∧ env a = .error e ∧
        res.getLast? = some ("error:" ++ a.describe ++ " reason=" ++ e) := by
  intro actions
  induction actions with
  | nil =>
    intro logs res e h
    simp [execute_plan] at h
  | cons a rest ih =>
    intro logs res e h
    by_cases hk : known_action a.name
    · simp only [execute_plan, hk, if_true] at h
      cases he : env a with
      | ok u =>
        rw [he] at h
        obtain ⟨a2, hmem, henv, hlast⟩ := ih _ _ _ h
        exact ⟨a2, List.mem_cons_of_mem _ hmem, henv, hlast⟩
      | error e0 =>
        rw [he] at h
        simp only [Except.error.injEq, Prod.mk.injEq] at h
        obtain ⟨hres, he2⟩ := h
        subst he2
        refine ⟨a, List.mem_cons_self _ _, he, ?_⟩
        rw [← hres]
        exact List.getLast?_concat _
    · simp only [execute_plan, hk, if_false] at h
      obtain ⟨a2, hmem, henv, hlast⟩ := ih _ _ _ h
      exact ⟨a2, List.mem_cons_of_mem _ hmem, henv, hlast⟩

/-- On success, every record the executor appended to the ledger is an
`ok:` or `skip:` record. -/
theorem execute_plan_ok_entries (env : PlannedAction → Except String Unit) :
    ∀ (actions : List PlannedAction) (logs out : List String),
      execute_plan env actions logs = .ok out →
      ∀ s ∈ out, s ∈ logs ∨ ∃ t, s = "ok:" ++ t ∨ s = "skip:" ++ t := by
  intro actions
  induction actions with
  | nil =>
    intro logs out h s hs
    simp only [execute_plan, Except.ok.injEq] at h
    subst h
    exact Or.inl hs
  | cons a rest ih =>
    intro logs out h s hs
    by_cases hk : known_action a.name
    · simp only [execute_plan, hk, if_true] at h
      cases he : env a with
      | ok u =>
        rw [he] at h
        rcases ih _ _ h s hs with hin | hshape
        · rcases List.mem_append.mp hin with h1 | h2
          · exact Or.inl h1
          · right
            exact ⟨a.describe, Or.inl (by simpa using h2)⟩
        · exact Or.inr hshape
      | error e0 =>
        rw [he] at h
        exact absurd h (by simp)
    · simp only [execute_plan, hk, if_false] at h
      rcases ih _ _ h s hs with hin | hshape
      · rcases List.mem_append.mp hin with h1 | h2
        · exact Or.inl h1
        · right
          exact ⟨a.describe, Or.inr (by simpa using h2)⟩
      · exact Or.inr hshape

/-- On an aborted run the surviving history holds only successful-turn
records. -/
theorem run_loop_error_history (build : String → List NodeSnapshot → String → String)
    (planner : String → List NodeSnapshot → Plan)
    (env : PlannedAction → Except String Unit)
    (collect : Nat → List NodeSnapshot) (request : String) :
    ∀ (fuel calls : Nat) (nodes : List NodeSnapshot) (history : List String)
      (executed : List PlannedAction) (batches : Nat) (e : String) (h : List String),
      (∀ s ∈ history, ∃ t, s = "ok:" ++ t ∨ s = "skip:" ++ t) →
      run_loop build planner env collect request fuel calls nodes history executed batches
        = .error (e, h) →
      ∀ s ∈ h, ∃ t, s = "ok:" ++ t ∨ s = "skip:" ++ t := by
  intro fuel
  induction fuel with
  | zero =>
    intro calls nodes history executed batches e h hinv heq
    simp [run_loop] at heq
  | succ f ih =>
    intro calls nodes history executed batches e h hinv heq
    simp only [run_loop] at heq
    cases hx : execute_plan env
        (planner (build request nodes (historyText history)) nodes).actions [] with
    | error p =>
      obtain ⟨logs, e0⟩ := p
      rw [hx] at heq
      simp only [Except.error.injEq, Prod.mk.injEq] at heq
      obtain ⟨he0, hh⟩ := heq
      subst hh
      exact hinv
    | ok logs =>
      rw [hx] at heq
      by_cases hr : (planner (build request nodes (historyText history)) nodes).request_refresh
        = true
      · simp only [hr, if_true] at heq
        refine ih _ _ _ _ _ _ _ ?_ heq
        intro s hs
        rcases List.mem_append.mp hs with h1 | h2
        · exact hinv s h1
        · rcases execute_plan_ok_entries env _ _ _ hx s h2 with hin | hshape
          · simp at hin
          · exact hshape
      · simp only [hr, if_false] at heq
        exact absurd heq (by simp)

/-- C1, as the code actually behaves: a handler failure does propagate out
of run_instruction, and the `error:<action> reason=<cause>` record is
appended to the per-turn execution log before the raise — but that log is
a local the raise discards, so the history that feeds prompts never
contains an error record. -/
theorem c1_amended :
    (∀ (env : PlannedAction → Except String Unit) (actions : List PlannedAction)
        (logs res : List String) (e : String),
        execute_plan env actions logs = .error (res, e) →
        ∃ a, a ∈ actions ∧ env a = .error e ∧
          res.getLast? = some ("error:" ++ a.describe ++ " reason=" ++ e)) ∧
    (∀ (build : String → List NodeSnapshot → String → String)
        (planner : String → List NodeSnapshot → Plan)
        (env : PlannedAction → Except String Unit)
        (collect : Nat → List NodeSnapshot) (request : String) (n : Nat)
        (e : String) (h : List String),
        run_instruction build planner env collect request n = .error (e, h) →
        ∀ s ∈ h, ∃ t, s = "ok:" ++ t ∨ s = "skip:" ++ t) :=
  ⟨fun env => execute_plan_error_last env,
   fun build planner env collect request n e h heq =>
     run_loop_error_history build planner env collect request n 0 (collect 0) [] [] 0 e h
       (by simp) heq⟩

/-- C1 fails as stated: with a planner issuing one tap and a handler that
raises, the exception propagates out of run_instruction, but the history
at the moment of propagation is empty — the error record never reached the
history that would feed the next prompt. -/
theorem c1_counterexample :
    run_instruction (fun _ _ _ => "") (fun _ _ => Plan.mk [PlannedAction.mk "tap" none .pyNone []] true "")
        (fun _ => .error "boom") (fun _ => []) "req" 2 = .error ("boom", []) ∧
    "error:tap reason=boom" ∉ ([] : List String) :=
  ⟨rfl, by simp⟩

/-- Witness for C1's amended statement at a concrete failing plan. -/
theorem c1_witness :
    ∃ a, a ∈ [PlannedAction.mk "tap" none .pyNone []] ∧
      (fun _ : PlannedAction => (Except.error "boom" : Except String Unit)) a
        = .error "boom" ∧
      (["error:tap reason=boom"] : List String).getLast? =
        some ("error:" ++ a.describe ++ " reason=" ++ "boom") :=
  c1_amended.1 (fun _ => .error "boom") [PlannedAction.mk "tap" none .pyNone []]
    [] ["error:tap reason=boom"] "boom" (by decide)

/-- When no handler raises, plan execution always returns normally. -/
theorem execute_plan_ok_of_env_ok (env : PlannedAction → Except String Unit)
    (henv : ∀ a, env a = .ok ()) :
    ∀ (actions : List PlannedAction) (logs : List String),
      ∃ out, execute_plan env actions logs = .ok out := by
  intro actions
  induction actions with
  | nil => intro logs; exact ⟨logs, rfl⟩
  | cons a rest ih =>
    intro logs
    by_cases hk : known_action a.name
    · simp only [execute_plan, hk, if_true]
      rw [henv a]
      exact ih _
    · simp only [execute_plan, hk, if_false]
      exact ih _

/-- With an always-continuing planner and non-raising handlers, the loop
consumes all its fuel, one executed batch per unit. -/
theorem run_loop_batches (build : String → List NodeSnapshot → String → String)
    (planner : String → List NodeSnapshot → Plan)
    (env : PlannedAction → Except String Unit)
    (collect : Nat → List NodeSnapshot) (request : String)
    (hp : ∀ p ns, (planner p ns).request_refresh = true)
    (henv : ∀ a, env a = .ok ()) :
    ∀ (fuel calls : Nat) (nodes : List NodeSnapshot) (history : List String)
      (executed : List PlannedAction) (batches : Nat),
      ∃ acts hist,
        run_loop build planner env collect request fuel calls nodes history executed batches
          = .ok (acts, hist, batches + fuel) := by
  intro fuel
  induction fuel with
  | zero =>
    intro calls nodes history executed batches
    exact ⟨executed, history, by simp [run_loop]⟩
  | succ f ih =>
    intro calls nodes history executed batches
    obtain ⟨out, hout⟩ := execute_plan_ok_of_env_ok env henv
      (planner (build request nodes (historyText history)) nodes).actions []
    obtain ⟨acts, hist, hrec⟩ := ih (calls + 1) (collect (calls + 1)) (history ++ out)
      (executed ++ (planner (build request nodes (historyText history)) nodes).actions)
      (batches + 1)
    refine ⟨acts, hist, ?_⟩
    simp only [run_loop]
    rw [hout]
    simp only [hp, if_true]
    rw [show batches + (f + 1) = batches + 1 + f from by omega]
    exact hrec

/-- C3: for every request and planner that always requests continuation
(and handlers that never raise), run_instruction with max_turns = n
executes exactly n plan-execute batches and stops. -/
theorem c3_turn_limit (build : String → List NodeSnapshot → String → String)
    (planner : String → List NodeSnapshot → Plan)
    (env : PlannedAction → Except String Unit)
    (collect : Nat → List NodeSnapshot) (request : String) (n : Nat)
    (hp : ∀ p ns, (planner p ns).request_refresh = true)
    (henv : ∀ a, env a = .ok ()) :
    batchesOf (run_instruction build planner env collect request n) = some n := by
  obtain ⟨acts, hist, h⟩ :=
    run_loop_batches build planner env collect request hp henv n 0 (collect 0) [] [] 0
  unfold run_instruction
  rw [h]
  simp [batchesOf]

/-- Witness for C3: an always-continuing planner with max_turns = 2 yields
exactly 2 executed batches. -/
theorem c3_witness :
    batchesOf (run_instruction (fun _ _ _ => "") (fun _ _ => Plan.mk [] true "")
      (fun _ => .ok ()) (fun _ => []) "r" 2) = some 2 :=
  c3_turn_limit _ _ _ _ "r" 2 (fun _ _ => rfl) (fun _ => rfl)

/-- The best-match scan only ever selects nodes that passed the
empty-text-and-description skip guard. -/
theorem fbm_invariant (keywords : List String) :
    ∀ (nodes : List MockNode) (best : Option MockNode) (bestScore : Nat) (t : MockNode),
      (∀ u, best = some u → ¬(u.text = "" ∧ u.content_desc = "")) →
      fbmGo keywords nodes best bestScore = some t →
      ¬(t.text = "" ∧ t.content_desc = "") := by
  intro nodes
  induction nodes with
  | nil =>
    intro best bestScore t hb heq
    simp only [fbmGo] at heq
    exact hb t heq
  | cons n rest ih =>
    intro best bestScore t hb heq
    simp only [fbmGo] at heq
    by_cases hskip : n.text = "" ∧ lowerStr n.content_desc = ""
    · rw [if_pos hskip] at heq
      exact ih _ _ _ hb heq
    · rw [if_neg hskip] at heq
      by_cases hup : bestScore < scoreNode keywords n
      · rw [if_pos hup] at heq
        refine ih _ _ t ?_ heq
        intro u hu
        injection hu with hu
        subst hu
        intro hcontra
        exact hskip ⟨hcontra.1, by rw [hcontra.2]; rfl⟩
      · rw [if_neg hup] at heq
        exact ih _ _ _ hb heq

/-- C6: whenever the heuristic planner emits a tap or input_text action, it
targets (via node_index) the best-match node, which has non-empty text or
non-empty description. -/
theorem c6_heuristic_target_nonempty :
    ∀ (nodes : List MockNode) (prompt : String) (a : PlannedAction),
      a ∈ (mock_actions nodes prompt).actions →
      a.name = "tap" ∨ a.name = "input_text" →
      ∃ t, find_best_match nodes (extract_keywords (lowerStr prompt)) (lowerStr prompt)
          = some t ∧
        (t.text ≠ "" ∨ t.content_desc ≠ "") ∧
        a.locator = some ("node_index", .pyInt t.index) := by
  intro nodes prompt a ha hname
  simp only [mock_actions] at ha
  by_cases hne : nodes.isEmpty = true
  · simp only [hne, Bool.not_true, Bool.false_eq_true, if_false, List.mem_singleton] at ha
    subst ha
    rcases hname with h | h <;> exact absurd h (by decide)
  · have hb : nodes.isEmpty = false := by
      revert hne; cases nodes.isEmpty <;> simp
    simp only [hb, Bool.not_false, if_true] at ha
    cases hfb : find_best_match nodes (extract_keywords (lowerStr prompt)) (lowerStr prompt) with
    | none =>
      rw [hfb] at ha
      simp only [List.mem_singleton] at ha
      subst ha
      rcases hname with h | h <;> exact absurd h (by decide)
    | some t =>
      rw [hfb] at ha
      have hguard : ¬(t.text = "" ∧ t.content_desc = "") :=
        fbm_invariant _ nodes none 0 t (fun u hu => absurd hu (by simp)) hfb
      refine ⟨t, rfl, not_and_or.mp hguard, ?_⟩
      by_cases hcue : (pyInStr "입력" (lowerStr prompt) || pyInStr "input" (lowerStr prompt)
          || pyInStr "type" (lowerStr prompt)) = true
      · simp only [hcue, if_true, List.mem_singleton] at ha
        subst ha
        rfl
      · have hcue2 : (pyInStr "입력" (lowerStr prompt) || pyInStr "input" (lowerStr prompt)
            || pyInStr "type" (lowerStr prompt)) = false := by
          revert hcue
          cases pyInStr "입력" (lowerStr prompt) || pyInStr "input" (lowerStr prompt)
            || pyInStr "type" (lowerStr prompt) <;> simp
        simp only [hcue2, Bool.false_eq_true, if_false, List.mem_singleton] at ha
        subst ha
        rfl

/-- Witness for C6 at a concrete node list and request. -/
theorem c6_witness :
    ∃ t, find_best_match [MockNode.mk "Submit button" "" "" "" (0, 0, 0, 0) 1]
        (extract_keywords (lowerStr "Click Submit")) (lowerStr "Click Submit") = some t ∧
      (t.text ≠ "" ∨ t.content_desc ≠ "") ∧
      (PlannedAction.mk "tap" (some ("node_index", .pyInt 1)) .pyNone
        [("mock_reason", "keyword matched"),
         ("element", mockNodeRepr (MockNode.mk "Submit button" "" "" "" (0, 0, 0, 0) 1))]).locator
        = some ("node_index", .pyInt t.index) :=
  c6_heuristic_target_nonempty [MockNode.mk "Submit button" "" "" "" (0, 0, 0, 0) 1]
    "Click Submit"
    (PlannedAction.mk "tap" (some ("node_index", .pyInt 1)) .pyNone
      [("mock_reason", "keyword matched"),
       ("element", mockNodeRepr (MockNode.mk "Submit button" "" "" "" (0, 0, 0, 0) 1))])
    (by decide) (Or.inl rfl)

end McpAppium
